import Mathlib

/-!
# Verification of `employment_establishment_data_collection.py`

Shallow embedding of the CBP establishment-count ETL script:
per-year fetch loop, `safe_int` coercion, island-wide aggregation,
pivot to wide form, derived change metrics, and JSON serialization.

Numeric model: pivot cells are `Option Int` (`none` = missing/NaN after the
pivot); the derived change columns are computed by the pandas/NumPy float
semantics, modelled by `PFloat` (NaN, ±infinity, or an exact rational).
All inputs here are integers and the operations performed (subtraction,
division, multiplication by 100) are exact on the values the claims test,
so rationals stand in for IEEE doubles.  pandas evaluates Series arithmetic
under `np.errstate(all="ignore")`: division by zero never raises, it yields
±inf (nonzero numerator) or NaN (0/0).
-/

namespace CBP

/-- Float semantics for the derived-metric arithmetic: NaN, signed
infinities, or a finite (exact rational) value. -/
inductive PFloat where
  | nan
  | inf
  | neginf
  | fin (q : ℚ)
deriving DecidableEq, Repr

/-- A pivot cell viewed as a float: missing value (pandas NaN) becomes NaN. -/
def toP : Option Int → PFloat
  | none => .nan
  | some n => .fin n

/-- IEEE-style subtraction on `PFloat`. -/
def PFloat.sub : PFloat → PFloat → PFloat
  | .nan, _ => .nan
  | _, .nan => .nan
  | .inf, .inf => .nan
  | .inf, _ => .inf
  | .neginf, .neginf => .nan
  | .neginf, _ => .neginf
  | .fin _, .inf => .neginf
  | .fin _, .neginf => .inf
  | .fin a, .fin b => .fin (a - b)

/-- IEEE-style division on `PFloat`: finite/0 is NaN when the numerator is 0,
otherwise a signed infinity (NumPy emits a warning, not an error). -/
def PFloat.div : PFloat → PFloat → PFloat
  | .nan, _ => .nan
  | _, .nan => .nan
  | .inf, .inf => .nan
  | .inf, .neginf => .nan
  | .neginf, .inf => .nan
  | .neginf, .neginf => .nan
  | .inf, .fin b => if b < 0 then .neginf else .inf
  | .neginf, .fin b => if b < 0 then .inf else .neginf
  | .fin _, .inf => .fin 0
  | .fin _, .neginf => .fin 0
  | .fin a, .fin b =>
      if b = 0 then (if a = 0 then .nan else if 0 < a then .inf else .neginf)
      else .fin (a / b)

/-- IEEE-style multiplication on `PFloat`. -/
def PFloat.mul : PFloat → PFloat → PFloat
  | .nan, _ => .nan
  | _, .nan => .nan
  | .inf, .inf => .inf
  | .inf, .neginf => .neginf
  | .neginf, .inf => .neginf
  | .neginf, .neginf => .inf
  | .inf, .fin b => if b = 0 then .nan else if 0 < b then .inf else .neginf
  | .neginf, .fin b => if b = 0 then .nan else if 0 < b then .neginf else .inf
  | .fin a, .inf => if a = 0 then .nan else if 0 < a then .inf else .neginf
  | .fin a, .neginf => if a = 0 then .nan else if 0 < a then .neginf else .inf
  | .fin a, .fin b => .fin (a * b)

/-! ## `safe_int` and Python `int()` parsing -/

/-- Python `str.strip()`: remove leading and trailing whitespace. -/
def pyStrip (cs : List Char) : List Char :=
  ((cs.dropWhile Char.isWhitespace).reverse.dropWhile Char.isWhitespace).reverse

/-- Continuation of a Python integer-literal digit group: digits, with single
underscores allowed only between digits. -/
def digitsRest : List Char → Bool
  | [] => true
  | '_' :: c :: cs => c.isDigit && digitsRest cs
  | c :: cs => c.isDigit && digitsRest cs

/-- A valid Python integer-literal digit group (nonempty, starts with a
digit, single underscores only between digits). -/
def digitsOk : List Char → Bool
  | [] => false
  | c :: cs => c.isDigit && digitsRest cs

/-- Numeric value of a list of decimal digits (underscores already removed). -/
def digitsToInt (cs : List Char) : Int :=
  cs.foldl (fun acc c => acc * 10 + ((c.toNat - '0'.toNat : Nat) : Int)) 0

/-- Python `int(s)` on a decimal string: strips whitespace, allows an
optional sign, then a digit group.  Returns `none` where Python raises
`ValueError`.  (Restricted to ASCII decimal digits, which is all the CBP
API ever returns.) -/
def pyParseInt (s : String) : Option Int :=
  match pyStrip s.data with
  | '+' :: cs => if digitsOk cs then some (digitsToInt (cs.filter (fun c => c ≠ '_'))) else none
  | '-' :: cs => if digitsOk cs then some (-(digitsToInt (cs.filter (fun c => c ≠ '_')))) else none
  | cs => if digitsOk cs then some (digitsToInt (cs.filter (fun c => c ≠ '_'))) else none

/-- `safe_int(val)`: the literal tokens `"N"` and `"0"` map to 0; otherwise
attempt `int(val)`; any failure (including `val is None`, where `int(None)`
raises `TypeError`) yields `None`.  The `try`/`except Exception` wrapper
makes the Python function total; the embedding is total by construction. -/
def safe_int : Option String → Option Int
  | none => none
  | some s => if s = "N" ∨ s = "0" then some 0 else pyParseInt s

/-- `get_naics_variable_name(year)`: NAICS vintage selector. -/
def get_naics_variable_name (year : Int) : String :=
  if year ≥ 2017 then "NAICS2017"
  else if year ≥ 2012 then "NAICS2012"
  else if year ≥ 2007 then "NAICS2007"
  else "NAICS2002"

/-! ## Name normalization: `row[idx["NAME"]].replace(" Municipio, Puerto Rico", "")` -/

/-- If `pat` matches a leading segment of `l`, return the remainder. -/
def dropPat : List Char → List Char → Option (List Char)
  | [], rest => some rest
  | _ :: _, [] => none
  | p :: ps, c :: cs => if c = p then dropPat ps cs else none

/-- The fixed suffix removed from municipality names. -/
def suffixPat : List Char := " Municipio, Puerto Rico".data

/-- Scan the characters, deleting every (non-overlapping, leftmost-first)
occurrence of `suffixPat`, exactly as Python `str.replace(pat, "")` does.
`fuel` is the input length, which bounds the recursion. -/
def stripGo : Nat → List Char → List Char
  | _, [] => []
  | 0, l => l
  | fuel + 1, c :: cs =>
    match dropPat suffixPat (c :: cs) with
    | some rest => stripGo fuel rest
    | none => c :: stripGo fuel cs

/-- Python `name.replace(" Municipio, Puerto Rico", "")`. -/
def stripName (s : String) : String := ⟨stripGo s.data.length s.data⟩

/-! ## Fetch loop -/

/-- One long-form record: a `(year, municipality)` establishment count. -/
structure YearlyRecord where
  year : Int
  Municipio : String
  Establishments : Option Int
deriving DecidableEq, Repr

/-- Outcome of one year's HTTP GET, as seen by the loop body:
`fail` covers a non-200 status and any transport/parse exception (both are
logged and skipped identically); `ok data` is a 200 response whose JSON body
parsed to a 2-D string array. -/
inductive Resp where
  | fail
  | ok (data : List (List String))
deriving DecidableEq, Repr

/-- `idx = {k: i for i, k in enumerate(header)}` followed by `idx[k]`: a
Python dict comprehension keeps the **last** index for a duplicated key;
a missing key is a `KeyError` (modelled as `none`). -/
def lastIdxOf (header : List String) (k : String) : Option Nat :=
  ((header.enum.filter (fun p => p.2 == k)).getLast?).map (·.1)

/-- The per-row loop of a successful year.  A `KeyError`/`IndexError` while
indexing a row is caught by the year-level `except`, which abandons the
remaining rows (records already emitted are kept, as in the Python).
Rows whose stripped name is `"Puerto Rico"` (the territory-wide total)
are discarded. -/
def processRows (header : List String) (year : Int) : List (List String) → List YearlyRecord
  | [] => []
  | row :: rest =>
    match (lastIdxOf header "NAME").bind (fun i => row[i]?) with
    | none => []
    | some name =>
      if stripName name = "Puerto Rico" then processRows header year rest
      else
        match (lastIdxOf header "ESTAB").bind (fun i => row[i]?) with
        | none => []
        | some v =>
          { year := year, Municipio := stripName name, Establishments := safe_int (some v) }
            :: processRows header year rest

/-- The two accumulators of the fetch loop: `records` and `successful_years`. -/
structure FetchState where
  records : List YearlyRecord
  successful_years : List Int
deriving DecidableEq, Repr

/-- One iteration of the fetch loop.  `r.json()` unpacking into
`header, *rows` raises on an empty array (caught, year skipped);
`if not rows: continue` skips a year with a header but no data rows
**before** it is appended to `successful_years`. -/
def stepYear (st : FetchState) (yr : Int) (resp : Resp) : FetchState :=
  match resp with
  | .fail => st
  | .ok [] => st
  | .ok (header :: rows) =>
    if rows.isEmpty then st
    else { records := st.records ++ processRows header yr rows,
           successful_years := st.successful_years ++ [yr] }

/-- The whole fetch loop over the year range (paired with each year's
response). -/
def fetchAll (input : List (Int × Resp)) : FetchState :=
  input.foldl (fun st p => stepYear st p.1 p.2) ⟨[], []⟩

/-! ## Ordering and sorting

Python compares strings lexicographically by code point; pandas sorts
group keys and pivot levels ascending.  The comparisons and the
(insertion) sort are written as plain structural recursion so concrete
runs reduce inside the kernel. -/

/-- Code-point lexicographic three-way comparison of character lists. -/
def charsCmp : List Char → List Char → Ordering
  | [], [] => .eq
  | [], _ :: _ => .lt
  | _ :: _, [] => .gt
  | a :: as, b :: bs =>
    if a = b then charsCmp as bs
    else if a.val.toNat < b.val.toNat then .lt
    else .gt

/-- Python string three-way comparison. -/
def strCmp (a b : String) : Ordering := charsCmp a.data b.data

/-- Python `a < b` on strings. -/
def strLtB (a b : String) : Bool :=
  match strCmp a b with
  | .lt => true
  | _ => false

/-- Python `a <= b` on strings. -/
def strLeB (a b : String) : Bool :=
  match strCmp a b with
  | .gt => false
  | _ => true

/-- `a <= b` on integers, as a boolean. -/
def intLeB (a b : Int) : Bool := decide (a ≤ b)

/-- Insert into a sorted list (the step of insertion sort). -/
def insertLe (le : α → α → Bool) (a : α) : List α → List α
  | [] => [a]
  | b :: l => if le a b then a :: b :: l else b :: insertLe le a l

/-- Insertion sort by a boolean comparison. -/
def sortLe (le : α → α → Bool) : List α → List α
  | [] => []
  | a :: l => insertLe le a (sortLe le l)

/-! ## DataFrame operations -/

/-- `df.sort_values(["Municipio", "year"])` key order. -/
def recLeB (a b : YearlyRecord) : Bool :=
  strLtB a.Municipio b.Municipio
    || (a.Municipio == b.Municipio && decide (a.year ≤ b.year))

/-- `df.sort_values(["Municipio", "year"])`. -/
def sortRecs (l : List YearlyRecord) : List YearlyRecord :=
  sortLe recLeB l

/-- `df.dropna(subset=["Establishments"])`. -/
def dropna (l : List YearlyRecord) : List YearlyRecord :=
  l.filter (fun r => r.Establishments.isSome)

/-- Sorted unique values, as pandas produces for group keys and pivot
levels (factorization sorts the categories). -/
def sortedDedupStr (l : List String) : List String :=
  sortLe strLeB l.dedup

/-- Sorted unique values (integer keys). -/
def sortedDedupInt (l : List Int) : List Int :=
  sortLe intLeB l.dedup

/-- `df.groupby("year")["Establishments"].sum()` for one year group
(called on the already-`dropna`ed frame, so `getD 0` never hides a null). -/
def estabSum (l : List YearlyRecord) (y : Int) : Int :=
  ((l.filter (fun r => r.year == y)).map (fun r => r.Establishments.getD 0)).sum

/-- The islandwide aggregate: one `"Puerto Rico"` row per year present,
holding the per-year sum (`groupby` emits groups in ascending key order). -/
def islandRows (l : List YearlyRecord) : List YearlyRecord :=
  (sortedDedupInt (l.map (·.year))).map
    (fun y => { year := y, Municipio := "Puerto Rico", Establishments := some (estabSum l y) })

/-- The frame handed to `df.pivot`: sorted, null-dropped records with the
islandwide rows concatenated at the end. -/
def pivotInput (recs : List YearlyRecord) : List YearlyRecord :=
  dropna (sortRecs recs) ++ islandRows (dropna (sortRecs recs))

/-- The `(index, columns)` key pairs of the pivot; pandas raises
`ValueError` when they are not unique. -/
def pivotKeysOf (recs : List YearlyRecord) : List (String × Int) :=
  (pivotInput recs).map (fun r => (r.Municipio, r.year))

/-- One pivot cell: the establishment count of municipality `m` in year
`y`, `none` (NaN) when no record exists. -/
def cellOf (l : List YearlyRecord) (m : String) (y : Int) : Option Int :=
  (l.find? (fun r => r.Municipio == m && r.year == y)).bind (·.Establishments)

/-- `pivot[L] - pivot[P]` on one row. -/
def deriveChange (pv lv : Option Int) : PFloat :=
  (toP lv).sub (toP pv)

/-- `(pivot[Change] / pivot[P]) * 100` on one row. -/
def derivePctChange (pv lv : Option Int) : PFloat :=
  ((deriveChange pv lv).div (toP pv)).mul (.fin 100)

/-- One wide output row: the year columns (stringified-year keys carry the
same integer year), the four derived change columns, and the
`RealIncome_<y>` / `Real_*` placeholder columns, which are always null
(represented by their year keys; their values carry no information). -/
structure WideRow where
  Municipio : String
  cells : List (Int × Option Int)
  change : PFloat
  pctChange : PFloat
  cumChange : PFloat
  cumPctChange : PFloat
  realIncomeYears : List Int
deriving DecidableEq, Repr

/-- Build the wide row of municipality `m` from the pivot, with
`F`, `P`, `L` the first, second-to-last, and last successful years. -/
def wideRowOf (allRecs : List YearlyRecord) (yrs sy : List Int)
    (fy py ly : Int) (m : String) : WideRow :=
  { Municipio := m
    cells := yrs.map (fun y => (y, cellOf allRecs m y))
    change := deriveChange (cellOf allRecs m py) (cellOf allRecs m ly)
    pctChange := derivePctChange (cellOf allRecs m py) (cellOf allRecs m ly)
    cumChange := deriveChange (cellOf allRecs m fy) (cellOf allRecs m ly)
    cumPctChange := derivePctChange (cellOf allRecs m fy) (cellOf allRecs m ly)
    realIncomeYears := sy }

/-- The trailing metadata dictionary (the wall-clock `updated` field is
outside the embedding). -/
structure Metadata where
  source : String
  units : String
  islandwide_aggregation : Bool
  data_years : List String
  notes : String
deriving DecidableEq, Repr

/-- The metadata record appended after the data rows. -/
def metadataOf (sy : List Int) : Metadata :=
  { source := "U.S. Census Bureau, County Business Patterns (CBP), NAICS 00 (All Industries)"
    units := "Number of Employer Establishments (as of March 12)"
    islandwide_aggregation := true
    data_years := sy.map (fun y => toString y)
    notes := "Establishment counts use year keys to maintain structural parity with the income JSON. RealIncome_* and Real_* fields are null placeholders." }

/-- An element of the serialized JSON array: a data row or the metadata. -/
inductive OutElem where
  | row (w : WideRow)
  | meta (m : Metadata)
deriving DecidableEq, Repr

/-- Is this array element the metadata object? -/
def OutElem.isMeta : OutElem → Bool
  | .meta _ => true
  | .row _ => false

/-- The `data_years` list, when the element is the metadata object. -/
def OutElem.dataYears : OutElem → Option (List String)
  | .meta m => some m.data_years
  | .row _ => none

/-- The municipality name, when the element is a data row. -/
def OutElem.rowName : OutElem → Option String
  | .meta _ => none
  | .row w => some w.Municipio

/-- The written JSON artifact: file name and array contents. -/
structure OutFile where
  filename : String
  elems : List OutElem
deriving DecidableEq, Repr

/-- How a run ends: `cleanExit` is `sys.exit(0)` (no file written),
`error` is an uncaught exception (no file written), `output` is a
successful write. -/
inductive RunResult where
  | cleanExit
  | error (msg : String)
  | output (f : OutFile)
deriving DecidableEq, Repr

/-- Did the run write the JSON artifact? -/
def RunResult.isOutput : RunResult → Bool
  | .output _ => true
  | _ => false

/-- The written artifact (dummy outside the success path). -/
def RunResult.fileD : RunResult → OutFile
  | .output f => f
  | _ => { filename := "", elems := [] }

/-- `START_YEAR = 2010`. -/
def START_YEAR : Int := 2010

/-- `f"municipios_cbp_establishments_{START_YEAR}_{last_str}_wide.json"`. -/
def outFileName (ly : Int) : String :=
  "municipios_cbp_establishments_" ++ toString START_YEAR ++ "_" ++ toString ly ++ "_wide.json"

/-- The pivot's column labels: the (sorted, distinct) years present. -/
def pivotYears (recs : List YearlyRecord) : List Int :=
  sortedDedupInt ((pivotInput recs).map (·.year))

/-- The pivot's row index: the (sorted, distinct) municipality names. -/
def pivotMunis (recs : List YearlyRecord) : List String :=
  sortedDedupStr ((pivotInput recs).map (·.Municipio))

/-- The JSON artifact written on the success path: one wide row per pivot
index entry, in pivot index order, followed by the metadata record. -/
def outputOf (recs : List YearlyRecord) (sy : List Int) : OutFile :=
  { filename := outFileName (sy.getLastD 0)
    elems := ((pivotMunis recs).map (fun m => OutElem.row
        (wideRowOf (pivotInput recs) (pivotYears recs) sy
          (sy.headD 0) (sy.dropLast.getLastD 0) (sy.getLastD 0) m)))
      ++ [.meta (metadataOf sy)] }

/-- Steps 3–5 of the script (dataframe build through `json.dump`),
given the fetched records and `successful_years` (length ≥ 2 ensured by
the caller).  Error paths:
* `records == []`: `pd.DataFrame([])` has no columns, so
  `sort_values(["Municipio", "year"])` raises `KeyError`;
* duplicate `(Municipio, year)` pairs: `df.pivot` raises `ValueError`;
* a referenced year column absent from the pivot (possible when a
  successful year contributed no non-null records): `pivot[year]` raises
  `KeyError`.  `F`, `P`, `L` are `successful_years[0]`,
  `successful_years[-2]`, `successful_years[-1]`. -/
def buildOutput (recs : List YearlyRecord) (sy : List Int) : RunResult :=
  if recs.isEmpty then .error "KeyError: Municipio"
  else if (pivotKeysOf recs).Nodup then
    if sy.headD 0 ∈ pivotYears recs ∧ sy.dropLast.getLastD 0 ∈ pivotYears recs
        ∧ sy.getLastD 0 ∈ pivotYears recs then
      .output (outputOf recs sy)
    else .error "KeyError: year column"
  else .error "ValueError: Index contains duplicate entries, cannot reshape"

/-- The whole script on a given year range with its responses: the
pre-fetch guard (`len(years) < 2` raises `RuntimeError`), the fetch loop,
the `sys.exit(0)` guard on `successful_years`, then the dataframe and
serialization steps. -/
def runPipeline (input : List (Int × Resp)) : RunResult :=
  if input.length < 2 then .error "RuntimeError: Not enough valid CBP years found."
  else if (fetchAll input).successful_years.length < 2 then .cleanExit
  else buildOutput (fetchAll input).records (fetchAll input).successful_years

/-- The distinct municipality names among the fetched records that survive
the null-drop (the data rows of the output are these plus the islandwide
row). -/
def munisOf (input : List (Int × Resp)) : List String :=
  ((dropna (sortRecs (fetchAll input).records)).map (·.Municipio)).dedup

/-! ## Auxiliary lemmas: sorting -/

theorem insertLe_perm (le : α → α → Bool) (a : α) :
    ∀ l : List α, List.Perm (insertLe le a l) (a :: l)
  | [] => List.Perm.refl _
  | b :: l => by
    unfold insertLe
    split
    · exact List.Perm.refl _
    · exact ((insertLe_perm le a l).cons b).trans (List.Perm.swap a b l)

theorem sortLe_perm (le : α → α → Bool) : ∀ l : List α, List.Perm (sortLe le l) l
  | [] => List.Perm.refl _
  | a :: l => (insertLe_perm le a (sortLe le l)).trans ((sortLe_perm le l).cons a)

theorem insertLe_headOpt (le : α → α → Bool) (a : α) :
    ∀ l : List α, (insertLe le a l).head? = some a ∨ (insertLe le a l).head? = l.head?
  | [] => Or.inl rfl
  | b :: l => by
    unfold insertLe
    split
    · exact Or.inl rfl
    · exact Or.inr rfl

theorem chain'_insertLe (le : α → α → Bool)
    (htot : ∀ a b, le a b = false → le b a = true) (a : α) :
    ∀ l : List α, List.Chain' (fun x y => le x y = true) l →
      List.Chain' (fun x y => le x y = true) (insertLe le a l)
  | [], _ => List.chain'_singleton a
  | b :: l, h => by
    unfold insertLe
    split
    · rename_i hle
      exact h.cons hle
    · rename_i hle
      rw [List.chain'_cons']
      refine ⟨?_, chain'_insertLe le htot a l h.tail⟩
      intro y hy
      rcases insertLe_headOpt le a l with hh | hh
      · rw [hh, Option.mem_some_iff] at hy
        subst hy
        exact htot a b (Bool.eq_false_iff.mpr hle)
      · rw [hh] at hy
        exact (List.chain'_cons'.mp h).1 y hy

theorem chain'_sortLe (le : α → α → Bool)
    (htot : ∀ a b, le a b = false → le b a = true) :
    ∀ l : List α, List.Chain' (fun x y => le x y = true) (sortLe le l)
  | [] => List.chain'_nil
  | a :: l => chain'_insertLe le htot a _ (chain'_sortLe le htot l)

theorem chain'_and {R S : α → α → Prop} :
    ∀ {l : List α}, List.Chain' R l → List.Chain' S l →
      List.Chain' (fun a b => R a b ∧ S a b) l
  | [], _, _ => List.chain'_nil
  | [a], _, _ => List.chain'_singleton a
  | _ :: _ :: _, h1, h2 => by
    rw [List.chain'_cons] at h1 h2 ⊢
    exact ⟨⟨h1.1, h2.1⟩, chain'_and h1.2 h2.2⟩

/-! ## Auxiliary lemmas: string comparison is a total order -/

theorem charsCmp_eq_iff : ∀ as bs : List Char, charsCmp as bs = .eq ↔ as = bs
  | [], [] => by simp [charsCmp]
  | [], _ :: _ => by simp [charsCmp]
  | _ :: _, [] => by simp [charsCmp]
  | a :: as, b :: bs => by
    unfold charsCmp
    by_cases hab : a = b
    · subst hab
      simp [charsCmp_eq_iff as bs]
    · simp only [if_neg hab]
      split <;> simp [hab]

theorem charsCmp_gt_iff : ∀ as bs : List Char, charsCmp as bs = .gt ↔ charsCmp bs as = .lt
  | [], [] => by simp [charsCmp]
  | [], _ :: _ => by simp [charsCmp]
  | _ :: _, [] => by simp [charsCmp]
  | a :: as, b :: bs => by
    unfold charsCmp
    by_cases hab : a = b
    · subst hab
      simp [charsCmp_gt_iff as bs]
    · have hba : b ≠ a := Ne.symm hab
      have hN : a.val.toNat ≠ b.val.toNat := fun h => hab (Char.ext (UInt32.ext h))
      simp only [if_neg hab, if_neg hba]
      rcases Nat.lt_trichotomy a.val.toNat b.val.toNat with h | h | h
      · rw [if_pos h, if_neg (Nat.lt_asymm h)]
        simp
      · exact absurd h hN
      · rw [if_neg (Nat.lt_asymm h), if_pos h]
        simp

theorem strLeB_total : ∀ a b : String, strLeB a b = false → strLeB b a = true := by
  intro a b h
  unfold strLeB strCmp at *
  rcases hab : charsCmp a.data b.data with _ | _ | _ <;> rw [hab] at h
  · exact Bool.noConfusion h
  · exact Bool.noConfusion h
  · rw [(charsCmp_gt_iff _ _).mp hab]

theorem strLeB_ne_lt (a b : String) (hle : strLeB a b = true) (hne : a ≠ b) :
    strLtB a b = true := by
  unfold strLeB strCmp at hle
  unfold strLtB strCmp
  rcases hcmp : charsCmp a.data b.data with _ | _ | _
  · rfl
  · exact absurd (String.toList_inj.mp ((charsCmp_eq_iff _ _).mp hcmp)) hne
  · rw [hcmp] at hle
    exact Bool.noConfusion hle

theorem intLeB_total : ∀ a b : Int, intLeB a b = false → intLeB b a = true := by
  intro a b h
  unfold intLeB at *
  rw [decide_eq_false_iff_not] at h
  rw [decide_eq_true_iff]
  omega

/-! ## Auxiliary lemmas: the fetch loop never keeps the territory row -/

theorem processRows_no_territory (header : List String) (year : Int) :
    ∀ (rows : List (List String)) (r : YearlyRecord),
      r ∈ processRows header year rows → r.Municipio ≠ "Puerto Rico" := by
  intro rows
  induction rows with
  | nil => intro r h; simp [processRows] at h
  | cons row rest ih =>
    intro r h
    unfold processRows at h
    rcases hname : (lastIdxOf header "NAME").bind (fun i => row[i]?) with _ | name
    · rw [hname] at h; simp at h
    · rw [hname] at h
      simp only at h
      by_cases hpr : stripName name = "Puerto Rico"
      · rw [if_pos hpr] at h; exact ih r h
      · rw [if_neg hpr] at h
        rcases hest : (lastIdxOf header "ESTAB").bind (fun i => row[i]?) with _ | v
        · rw [hest] at h; simp at h
        · rw [hest] at h
          simp only at h
          rcases List.mem_cons.mp h with heq | hmem
          · subst heq; exact hpr
          · exact ih r hmem

theorem stepYear_no_territory (st : FetchState) (yr : Int) (resp : Resp)
    (h : ∀ r ∈ st.records, r.Municipio ≠ "Puerto Rico") :
    ∀ r ∈ (stepYear st yr resp).records, r.Municipio ≠ "Puerto Rico" := by
  intro r hr
  rcases resp with _ | data
  · exact h r hr
  · rcases data with _ | ⟨header, rows⟩
    · exact h r hr
    · simp only [stepYear] at hr
      by_cases hrows : rows.isEmpty
      · rw [if_pos hrows] at hr; exact h r hr
      · rw [if_neg hrows] at hr
        simp only at hr
        rcases List.mem_append.mp hr with h1 | h2
        · exact h r h1
        · exact processRows_no_territory header yr rows r h2

theorem fetchAll_no_territory (input : List (Int × Resp)) :
    ∀ r ∈ (fetchAll input).records, r.Municipio ≠ "Puerto Rico" := by
  have key : ∀ (inp : List (Int × Resp)) (st : FetchState),
      (∀ r ∈ st.records, r.Municipio ≠ "Puerto Rico") →
      ∀ r ∈ (inp.foldl (fun st p => stepYear st p.1 p.2) st).records,
        r.Municipio ≠ "Puerto Rico" := by
    intro inp
    induction inp with
    | nil => intro st h; simpa using h
    | cons p rest ih =>
      intro st h
      rw [List.foldl_cons]
      exact ih (stepYear st p.1 p.2) (stepYear_no_territory st p.1 p.2 h)
  exact key input ⟨[], []⟩ (by simp)

/-! ## Auxiliary lemmas: deduplication counting -/

theorem dedup_const_eq (c : String) :
    ∀ k : List String, k ≠ [] → (∀ x ∈ k, x = c) → k.dedup = [c] := by
  intro k
  induction k with
  | nil => intro h; exact absurd rfl h
  | cons x t ih =>
    intro _ hall
    have hx : x = c := hall x (List.mem_cons_self x t)
    subst hx
    by_cases ht : t = []
    · subst ht; simp
    · have hdt := ih ht (fun y hy => hall y (List.mem_cons_of_mem _ hy))
      have hmem : x ∈ t := List.mem_dedup.mp (hdt ▸ List.mem_singleton_self x)
      rw [List.dedup_cons_of_mem hmem, hdt]

theorem dedup_append_const (c : String) (k : List String)
    (hk : k ≠ []) (hkc : ∀ x ∈ k, x = c) :
    ∀ l : List String, c ∉ l → (l ++ k).dedup.length = l.dedup.length + 1 := by
  intro l
  induction l with
  | nil => intro _; simp [dedup_const_eq c k hk hkc]
  | cons x t ih =>
    intro hcl
    have hxc : x ≠ c := fun h => hcl (h ▸ List.mem_cons_self x t)
    have hct : c ∉ t := fun h => hcl (List.mem_cons_of_mem _ h)
    by_cases hxt : x ∈ t
    · rw [List.cons_append, List.dedup_cons_of_mem (List.mem_append_left k hxt),
        List.dedup_cons_of_mem hxt]
      exact ih hct
    · have hxk : x ∉ k := fun h => hxc (hkc x h)
      have hxtk : x ∉ t ++ k := fun h => (List.mem_append.mp h).elim hxt hxk
      rw [List.cons_append, List.dedup_cons_of_not_mem hxtk, List.dedup_cons_of_not_mem hxt]
      simp only [List.length_cons]
      rw [ih hct]

/-! ## Auxiliary lemmas: islandwide aggregation -/

theorem islandRows_mem (l : List YearlyRecord) (r : YearlyRecord)
    (h : r ∈ islandRows l) :
    r.Municipio = "Puerto Rico" ∧ r.Establishments = some (estabSum l r.year) := by
  unfold islandRows at h
  rcases List.mem_map.mp h with ⟨y, _, rfl⟩
  exact ⟨rfl, rfl⟩

theorem islandRows_year_mem (l : List YearlyRecord) (y : Int)
    (hy : y ∈ l.map (·.year)) :
    (⟨y, "Puerto Rico", some (estabSum l y)⟩ : YearlyRecord) ∈ islandRows l := by
  unfold islandRows
  refine List.mem_map.mpr ⟨y, ?_, rfl⟩
  unfold sortedDedupInt
  rw [(sortLe_perm intLeB _).mem_iff, List.mem_dedup]
  exact hy

theorem islandRows_municipios (l : List YearlyRecord) :
    (islandRows l).map (·.Municipio) =
      (sortedDedupInt (l.map (·.year))).map (fun _ => "Puerto Rico") := by
  unfold islandRows
  rw [List.map_map]
  rfl

/-! ## Auxiliary lemmas: non-emptiness and counting in the pivot -/

theorem sortLe_eq_nil_iff (le : α → α → Bool) (l : List α) : sortLe le l = [] ↔ l = [] := by
  constructor
  · intro h
    have hl := (sortLe_perm le l).length_eq
    rw [h] at hl
    exact List.length_eq_zero.mp hl.symm
  · intro h; subst h; rfl

theorem kept_ne_nil_of_pivotYears_mem (recs : List YearlyRecord) (y : Int)
    (hy : y ∈ pivotYears recs) : dropna (sortRecs recs) ≠ [] := by
  intro hnil
  have hpi : pivotInput recs = [] := by
    unfold pivotInput
    rw [hnil]
    simp [islandRows, sortedDedupInt, sortLe]
  rw [pivotYears, hpi] at hy
  simp [sortedDedupInt, sortLe] at hy

theorem islandRows_ne_nil (l : List YearlyRecord) (hl : l ≠ []) : islandRows l ≠ [] := by
  unfold islandRows sortedDedupInt
  simp only [ne_eq, List.map_eq_nil_iff, sortLe_eq_nil_iff, List.dedup_eq_nil]
  exact hl

theorem pivotMunis_length (recs : List YearlyRecord)
    (hNoPR : ∀ r ∈ dropna (sortRecs recs), r.Municipio ≠ "Puerto Rico")
    (hne : dropna (sortRecs recs) ≠ []) :
    (pivotMunis recs).length
      = ((dropna (sortRecs recs)).map (·.Municipio)).dedup.length + 1 := by
  unfold pivotMunis sortedDedupStr
  rw [(sortLe_perm strLeB _).length_eq]
  unfold pivotInput
  rw [List.map_append]
  refine dedup_append_const "Puerto Rico" _ ?_ ?_ _ ?_
  · simp only [ne_eq, List.map_eq_nil_iff]
    exact islandRows_ne_nil _ hne
  · intro x hx
    rcases List.mem_map.mp hx with ⟨r, hr, rfl⟩
    exact (islandRows_mem _ r hr).1
  · intro hmem
    rcases List.mem_map.mp hmem with ⟨r, hr, hrm⟩
    exact hNoPR r hr hrm

/-- Inversion of the success path: when a run writes the artifact, every
guard held and the result is literally `outputOf`. -/
theorem runPipeline_output_inv (input : List (Int × Resp))
    (h : (runPipeline input).isOutput = true) :
    2 ≤ input.length ∧
    2 ≤ (fetchAll input).successful_years.length ∧
    ¬ (fetchAll input).records.isEmpty ∧
    (pivotKeysOf (fetchAll input).records).Nodup ∧
    ((fetchAll input).successful_years.headD 0 ∈ pivotYears (fetchAll input).records ∧
      (fetchAll input).successful_years.dropLast.getLastD 0 ∈ pivotYears (fetchAll input).records ∧
      (fetchAll input).successful_years.getLastD 0 ∈ pivotYears (fetchAll input).records) ∧
    runPipeline input
      = .output (outputOf (fetchAll input).records (fetchAll input).successful_years) := by
  unfold runPipeline at h ⊢
  by_cases h1 : input.length < 2
  · rw [if_pos h1] at h; simp [RunResult.isOutput] at h
  · rw [if_neg h1] at h ⊢
    by_cases h2 : (fetchAll input).successful_years.length < 2
    · rw [if_pos h2] at h; simp [RunResult.isOutput] at h
    · rw [if_neg h2] at h ⊢
      unfold buildOutput at h ⊢
      by_cases h3 : (fetchAll input).records.isEmpty
      · rw [if_pos h3] at h; simp [RunResult.isOutput] at h
      · rw [if_neg h3] at h ⊢
        by_cases h4 : (pivotKeysOf (fetchAll input).records).Nodup
        · rw [if_pos h4] at h ⊢
          by_cases h5 : (fetchAll input).successful_years.headD 0
                ∈ pivotYears (fetchAll input).records
              ∧ (fetchAll input).successful_years.dropLast.getLastD 0
                ∈ pivotYears (fetchAll input).records
              ∧ (fetchAll input).successful_years.getLastD 0
                ∈ pivotYears (fetchAll input).records
          · rw [if_pos h5]
            exact ⟨by omega, by omega, h3, h4, h5, rfl⟩
          · rw [if_neg h5] at h; simp [RunResult.isOutput] at h
        · rw [if_neg h4] at h; simp [RunResult.isOutput] at h

/-! ## Claims -/

/-- C5: `safe_int` is deterministic and total (a Lean function, defined on
every input, in place of Python's `try`/`except` wrapper) and satisfies
`safe_int("N") = 0`, `safe_int("0") = 0`, `safe_int("1234") = 1234`,
`safe_int("abc") = null`, `safe_int(None) = null`; any value that is not
one of the two literal tokens and fails integer parsing yields null. -/
theorem safe_int_spec :
    safe_int (some "N") = some 0 ∧ safe_int (some "0") = some 0 ∧
    safe_int (some "1234") = some 1234 ∧ safe_int (some "abc") = none ∧
    safe_int none = none ∧
    (∀ s : String, s ≠ "N" → s ≠ "0" → pyParseInt s = none → safe_int (some s) = none) := by
  refine ⟨by decide, by decide, by decide, by decide, rfl, ?_⟩
  intro s h1 h2 h3
  show (if s = "N" ∨ s = "0" then some 0 else pyParseInt s) = none
  rw [if_neg (not_or.mpr ⟨h1, h2⟩), h3]

theorem safe_int_spec_witness : safe_int (some "xyz") = none :=
  safe_int_spec.2.2.2.2.2 "xyz" (by decide) (by decide) (by decide)

/-- C8: the NAICS vintage selector has inclusive-lower era boundaries at
2007, 2012 and 2017: years ≥ 2017 give the era-4 code `NAICS2017`,
2012–2016 the era-3 code `NAICS2012`, 2007–2011 the era-2 code
`NAICS2007`, and years < 2007 the era-1 code `NAICS2002`. -/
theorem naics_selector_eras :
    (∀ y : Int, 2017 ≤ y → get_naics_variable_name y = "NAICS2017") ∧
    (∀ y : Int, 2012 ≤ y → y ≤ 2016 → get_naics_variable_name y = "NAICS2012") ∧
    (∀ y : Int, 2007 ≤ y → y ≤ 2011 → get_naics_variable_name y = "NAICS2007") ∧
    (∀ y : Int, y < 2007 → get_naics_variable_name y = "NAICS2002") := by
  refine ⟨?_, ?_, ?_, ?_⟩ <;> intro y
  · intro h
    unfold get_naics_variable_name
    rw [if_pos (by omega)]
  · intro h1 h2
    unfold get_naics_variable_name
    rw [if_neg (by omega), if_pos (by omega)]
  · intro h1 h2
    unfold get_naics_variable_name
    rw [if_neg (by omega), if_neg (by omega), if_pos (by omega)]
  · intro h
    unfold get_naics_variable_name
    rw [if_neg (by omega), if_neg (by omega), if_neg (by omega)]

theorem naics_selector_eras_witness :
    get_naics_variable_name 2020 = "NAICS2017" ∧
    get_naics_variable_name 2015 = "NAICS2012" ∧
    get_naics_variable_name 2010 = "NAICS2007" ∧
    get_naics_variable_name 2005 = "NAICS2002" :=
  ⟨naics_selector_eras.1 2020 (by decide),
   naics_selector_eras.2.1 2015 (by decide) (by decide),
   naics_selector_eras.2.2.1 2010 (by decide) (by decide),
   naics_selector_eras.2.2.2 2005 (by decide)⟩

/-- C1: on a wide row whose `F`, `P`, `L` cells hold values `fv`, `pv`,
`lv`, the derived columns are `Change = lv - pv`,
`Pct_Change = (lv - pv) / pv * 100`, `Cum_Change = lv - fv`, and
`Cum_Pct_Change = (lv - fv) / fv * 100` (with nonzero denominators); in
particular `pv = 100, lv = 150` gives `Change = 50, Pct_Change = 50` and
`fv = 80, lv = 150` gives `Cum_Change = 70, Cum_Pct_Change = 87.5`. -/
theorem change_metrics_formulas (allRecs : List YearlyRecord) (yrs sy : List Int)
    (fy py ly : Int) (m : String) (fv pv lv : Int)
    (hf : cellOf allRecs m fy = some fv)
    (hp : cellOf allRecs m py = some pv)
    (hl : cellOf allRecs m ly = some lv) :
    (wideRowOf allRecs yrs sy fy py ly m).change = .fin ((lv : ℚ) - pv) ∧
    (pv ≠ 0 → (wideRowOf allRecs yrs sy fy py ly m).pctChange
        = .fin (((lv : ℚ) - pv) / pv * 100)) ∧
    (wideRowOf allRecs yrs sy fy py ly m).cumChange = .fin ((lv : ℚ) - fv) ∧
    (fv ≠ 0 → (wideRowOf allRecs yrs sy fy py ly m).cumPctChange
        = .fin (((lv : ℚ) - fv) / fv * 100)) := by
  have hpct : ∀ (a b : Int), a ≠ 0 →
      derivePctChange (some a) (some b) = .fin (((b : ℚ) - a) / a * 100) := by
    intro a b ha
    have ha' : ((a : ℚ)) ≠ 0 := Int.cast_ne_zero.mpr ha
    simp only [derivePctChange, deriveChange, toP, PFloat.sub, PFloat.div, PFloat.mul,
      if_neg ha']
  refine ⟨?_, ?_, ?_, ?_⟩
  · show deriveChange (cellOf allRecs m py) (cellOf allRecs m ly) = _
    rw [hp, hl]; rfl
  · intro hpv
    show derivePctChange (cellOf allRecs m py) (cellOf allRecs m ly) = _
    rw [hp, hl]; exact hpct pv lv hpv
  · show deriveChange (cellOf allRecs m fy) (cellOf allRecs m ly) = _
    rw [hf, hl]; rfl
  · intro hfv
    show derivePctChange (cellOf allRecs m fy) (cellOf allRecs m ly) = _
    rw [hf, hl]; exact hpct fv lv hfv

def recsC1 : List YearlyRecord :=
  [⟨2010, "Ponce", some 80⟩, ⟨2015, "Ponce", some 100⟩, ⟨2020, "Ponce", some 150⟩]

theorem change_metrics_formulas_witness :
    (wideRowOf recsC1 [2010, 2015, 2020] [2010, 2015, 2020] 2010 2015 2020 "Ponce").change
        = .fin 50 ∧
    (wideRowOf recsC1 [2010, 2015, 2020] [2010, 2015, 2020] 2010 2015 2020 "Ponce").pctChange
        = .fin 50 ∧
    (wideRowOf recsC1 [2010, 2015, 2020] [2010, 2015, 2020] 2010 2015 2020 "Ponce").cumChange
        = .fin 70 ∧
    (wideRowOf recsC1 [2010, 2015, 2020] [2010, 2015, 2020] 2010 2015 2020 "Ponce").cumPctChange
        = .fin (175 / 2) := by
  have h := change_metrics_formulas recsC1 [2010, 2015, 2020] [2010, 2015, 2020]
    2010 2015 2020 "Ponce" 80 100 150 (by decide) (by decide) (by decide)
  refine ⟨h.1.trans ?_, (h.2.1 (by decide)).trans ?_,
    h.2.2.1.trans ?_, (h.2.2.2 (by decide)).trans ?_⟩ <;> norm_num

/-- C3 (amended): computing the four derived columns never raises (the
embedding is total); a null operand in the `P` (resp. `F`) or `L` cell
makes the change and percent columns NaN; a zero denominator never raises
either, but produces NaN only in the 0/0 case — a nonzero numerator gives
a signed infinity, not a null. -/
theorem null_propagation (pv lv : Option Int) :
    (pv = none ∨ lv = none →
      deriveChange pv lv = .nan ∧ derivePctChange pv lv = .nan) ∧
    (pv = some 0 → lv = some 0 → derivePctChange pv lv = .nan) ∧
    (∀ n : Int, pv = some 0 → lv = some n → 0 < n → derivePctChange pv lv = .inf) ∧
    (∀ n : Int, pv = some 0 → lv = some n → n < 0 → derivePctChange pv lv = .neginf) := by
  refine ⟨?_, ?_, ?_, ?_⟩
  · rintro (rfl | rfl)
    · rcases lv with _ | b
      · exact ⟨rfl, rfl⟩
      · exact ⟨rfl, rfl⟩
    · rcases pv with _ | a
      · exact ⟨rfl, rfl⟩
      · exact ⟨rfl, rfl⟩
  · rintro rfl rfl
    simp [derivePctChange, deriveChange, toP, PFloat.sub, PFloat.div, PFloat.mul]
  · rintro n rfl rfl hn
    have h1 : ((n : ℚ)) - 0 ≠ 0 := by
      rw [sub_zero]
      exact_mod_cast hn.ne'
    have h2 : (0 : ℚ) < (n : ℚ) - 0 := by
      rw [sub_zero]
      exact_mod_cast hn
    simp only [derivePctChange, deriveChange, toP, PFloat.sub, PFloat.div, PFloat.mul,
      Int.cast_zero, if_pos rfl, if_neg h1, if_pos h2]
    norm_num
  · rintro n rfl rfl hn
    have h1 : ((n : ℚ)) - 0 ≠ 0 := by
      rw [sub_zero]
      exact_mod_cast hn.ne
    have h2 : ¬ (0 : ℚ) < (n : ℚ) - 0 := by
      rw [sub_zero]
      exact not_lt.mpr (le_of_lt (by exact_mod_cast hn))
    simp only [derivePctChange, deriveChange, toP, PFloat.sub, PFloat.div, PFloat.mul,
      Int.cast_zero, if_pos rfl, if_neg h1, if_neg h2]
    norm_num

theorem null_propagation_witness :
    deriveChange none (some 5) = PFloat.nan ∧ derivePctChange none (some 5) = PFloat.nan ∧
    derivePctChange (some 0) (some 0) = PFloat.nan ∧
    derivePctChange (some 0) (some 7) = PFloat.inf ∧
    derivePctChange (some 0) (some (-7)) = PFloat.neginf := by
  obtain ⟨h1, h2⟩ := (null_propagation none (some 5)).1 (Or.inl rfl)
  exact ⟨h1, h2, (null_propagation (some 0) (some 0)).2.1 rfl rfl,
    (null_propagation (some 0) (some 7)).2.2.1 7 rfl rfl (by decide),
    (null_propagation (some 0) (some (-7))).2.2.2 (-7) rfl rfl (by decide)⟩

/-- C3 counterexample: a literal zero denominator with a nonzero change
yields positive infinity, which is not a null/NaN result — refuting "a
literal zero denominator yields null". -/
theorem zero_denominator_not_null :
    derivePctChange (some 0) (some 50) = PFloat.inf ∧ PFloat.inf ≠ PFloat.nan := by
  refine ⟨?_, by decide⟩
  have h1 : ((50 : Int) : ℚ) - 0 ≠ 0 := by norm_num
  have h2 : (0 : ℚ) < ((50 : Int) : ℚ) - 0 := by norm_num
  simp only [derivePctChange, deriveChange, toP, PFloat.sub, PFloat.div, PFloat.mul,
    Int.cast_zero, if_pos rfl, if_neg h1, if_pos h2]
  norm_num

/-- A CBP response header, as the API returns it. -/
def hdrC : List String := ["NAME", "ESTAB", "state", "county"]

/-- C2 (amended): a successful response with a header row but zero data
rows causes only that single year to be skipped — the fetch state is
exactly as if the year were absent from the range, and the remaining
years are still processed. -/
theorem zero_rows_skips_only_that_year (pre post : List (Int × Resp)) (y : Int)
    (hdr : List String) :
    fetchAll (pre ++ (y, Resp.ok [hdr]) :: post) = fetchAll (pre ++ post) := by
  unfold fetchAll
  rw [List.foldl_append, List.foldl_append, List.foldl_cons]
  rfl

/-- C2 counterexample: with year 2011 returning a header and zero data
rows, the run is not skipped — 2011 alone is dropped from
`successful_years` and the pipeline still writes its artifact. -/
def inpC2 : List (Int × Resp) :=
  [ (2010, .ok [hdrC, ["Adjuntas Municipio, Puerto Rico", "5", "72", "001"],
                      ["Ponce Municipio, Puerto Rico", "7", "72", "113"]]),
    (2011, .ok [hdrC]),
    (2012, .ok [hdrC, ["Adjuntas Municipio, Puerto Rico", "6", "72", "001"],
                      ["Ponce Municipio, Puerto Rico", "8", "72", "113"]]) ]

theorem zero_rows_run_continues :
    (fetchAll inpC2).successful_years = [2010, 2012] ∧
    (runPipeline inpC2).isOutput = true :=
  ⟨by decide, by decide⟩

/-- C7: if fewer than 2 years returned usable data after the fetch loop
(while the computed year range itself was big enough), the run terminates
with the non-error `sys.exit(0)` path and writes no output file. -/
theorem insufficient_years_clean_exit (input : List (Int × Resp))
    (hlen : 2 ≤ input.length)
    (hsy : (fetchAll input).successful_years.length < 2) :
    runPipeline input = .cleanExit ∧ (runPipeline input).isOutput = false := by
  have h : runPipeline input = .cleanExit := by
    unfold runPipeline
    rw [if_neg (by omega), if_pos hsy]
  exact ⟨h, by rw [h]; rfl⟩

def inpC7 : List (Int × Resp) := [(2010, .fail), (2011, .fail)]

theorem insufficient_years_clean_exit_witness :
    runPipeline inpC7 = .cleanExit ∧ (runPipeline inpC7).isOutput = false :=
  insufficient_years_clean_exit inpC7 (by decide) (by decide)

/-- C4: the fetch loop never emits the territory-wide "Puerto Rico" row;
the aggregator works on the null-dropped records, and every islandwide row
is named "Puerto Rico" and carries the per-year sum of the (non-null)
municipality establishment values; for every year present among the kept
records such a row exists. -/
theorem island_aggregation :
    (∀ (input : List (Int × Resp)) (r : YearlyRecord),
        r ∈ (fetchAll input).records → r.Municipio ≠ "Puerto Rico") ∧
    (∀ (recs : List YearlyRecord) (r : YearlyRecord),
        r ∈ islandRows (dropna (sortRecs recs)) →
          r.Municipio = "Puerto Rico"
            ∧ r.Establishments = some (estabSum (dropna (sortRecs recs)) r.year)) ∧
    (∀ (recs : List YearlyRecord) (y : Int),
        y ∈ (dropna (sortRecs recs)).map (·.year) →
          (⟨y, "Puerto Rico", some (estabSum (dropna (sortRecs recs)) y)⟩ : YearlyRecord)
            ∈ islandRows (dropna (sortRecs recs))) := by
  refine ⟨?_, ?_, ?_⟩
  · intro input r hr
    exact fetchAll_no_territory input r hr
  · intro recs r hr
    exact islandRows_mem _ r hr
  · intro recs y hy
    exact islandRows_year_mem _ y hy

def inpC4 : List (Int × Resp) :=
  [(2010, .ok [hdrC, ["Adjuntas Municipio, Puerto Rico", "5", "72", "001"]])]

def recsC4 : List YearlyRecord :=
  [⟨2010, "Adjuntas", some 5⟩, ⟨2010, "Ponce", some 7⟩, ⟨2010, "Utuado", none⟩,
   ⟨2015, "Adjuntas", some 6⟩]

theorem island_aggregation_witness :
    (⟨2010, "Adjuntas", some 5⟩ : YearlyRecord).Municipio ≠ "Puerto Rico" ∧
    ((⟨2010, "Puerto Rico", some (estabSum (dropna (sortRecs recsC4)) 2010)⟩ : YearlyRecord)
        ∈ islandRows (dropna (sortRecs recsC4))) ∧
    ((⟨2010, "Puerto Rico", some 12⟩ : YearlyRecord).Municipio = "Puerto Rico"
      ∧ (⟨2010, "Puerto Rico", some 12⟩ : YearlyRecord).Establishments
          = some (estabSum (dropna (sortRecs recsC4)) 2010)) :=
  ⟨island_aggregation.1 inpC4 ⟨2010, "Adjuntas", some 5⟩ (by decide),
   island_aggregation.2.2 recsC4 2010 (by decide),
   island_aggregation.2.1 recsC4 ⟨2010, "Puerto Rico", some 12⟩ (by decide)⟩

/-- C9 (amended): the pivot succeeds only when the records that survive
the null-drop (plus the islandwide rows) have at most one record per
`(municipality, year)` pair; when that key list has a duplicate the run
writes no output, and — once past the two range/success guards — ends in
the pivot's `ValueError`.  Duplicate rows whose establishment values are
all null do not trigger this (see the counterexample). -/
theorem pivot_duplicate_aborts (input : List (Int × Resp))
    (hdup : ¬ (pivotKeysOf (fetchAll input).records).Nodup) :
    (runPipeline input).isOutput = false ∧
    (2 ≤ input.length → 2 ≤ (fetchAll input).successful_years.length →
      runPipeline input
        = .error "ValueError: Index contains duplicate entries, cannot reshape") := by
  have herr : 2 ≤ input.length → 2 ≤ (fetchAll input).successful_years.length →
      runPipeline input
        = .error "ValueError: Index contains duplicate entries, cannot reshape" := by
    intro hl hsy
    unfold runPipeline
    rw [if_neg (by omega), if_neg (by omega)]
    unfold buildOutput
    have h3 : ¬ (fetchAll input).records.isEmpty := by
      intro hemp
      apply hdup
      rw [List.isEmpty_iff] at hemp
      unfold pivotKeysOf pivotInput
      rw [hemp]
      simp [dropna, sortRecs, sortLe, islandRows, sortedDedupInt]
    rw [if_neg h3, if_neg hdup]
  refine ⟨?_, herr⟩
  by_cases h1 : input.length < 2
  · unfold runPipeline
    rw [if_pos h1]
    rfl
  · by_cases h2 : (fetchAll input).successful_years.length < 2
    · unfold runPipeline
      rw [if_neg h1, if_pos h2]
      rfl
    · rw [herr (by omega) (by omega)]
      rfl

def inpC9w : List (Int × Resp) :=
  [ (2010, .ok [hdrC, ["Adjuntas Municipio, Puerto Rico", "5", "72", "001"],
                      ["Adjuntas Municipio, Puerto Rico", "6", "72", "001"]]),
    (2011, .ok [hdrC, ["Adjuntas Municipio, Puerto Rico", "7", "72", "001"]]) ]

theorem pivot_duplicate_aborts_witness :
    (runPipeline inpC9w).isOutput = false ∧
    (2 ≤ inpC9w.length → 2 ≤ (fetchAll inpC9w).successful_years.length →
      runPipeline inpC9w
        = .error "ValueError: Index contains duplicate entries, cannot reshape") :=
  pivot_duplicate_aborts inpC9w (by decide)

/-- C9 counterexample: year 2010's response yields two rows for the same
municipality (Adjuntas), yet both establishment values are unparseable, so
`dropna` removes them before the pivot and the run still writes its
artifact — refuting "if any successful year's response yields two rows for
the same municipality, the pivot raises and the run produces no output". -/
def inpC9 : List (Int × Resp) :=
  [ (2010, .ok [hdrC, ["Adjuntas Municipio, Puerto Rico", "abc", "72", "001"],
                      ["Adjuntas Municipio, Puerto Rico", "abc", "72", "001"],
                      ["Ponce Municipio, Puerto Rico", "7", "72", "113"]]),
    (2011, .ok [hdrC, ["Ponce Municipio, Puerto Rico", "8", "72", "113"]]) ]

theorem duplicate_null_rows_still_output :
    ((fetchAll inpC9).records.filter
        (fun r => r.Municipio == "Adjuntas" && r.year == 2010)).length = 2 ∧
    (runPipeline inpC9).isOutput = true :=
  ⟨by decide, by decide⟩

/-- C6: every completed run writes a single array whose final element is
the metadata object and whose other elements are data rows; its length is
(number of municipalities with usable data) + 1 islandwide row + 1
metadata record; the metadata's `data_years` are exactly the string forms
of the successful years; and the filename encodes `START_YEAR` and the
last successful year. -/
theorem output_shape (input : List (Int × Resp))
    (h : (runPipeline input).isOutput = true) :
    (runPipeline input).fileD.elems.getLast?
        = some (.meta (metadataOf (fetchAll input).successful_years)) ∧
    (∀ e ∈ (runPipeline input).fileD.elems.dropLast, e.isMeta = false) ∧
    (metadataOf (fetchAll input).successful_years).data_years
        = (fetchAll input).successful_years.map (fun y => toString y) ∧
    (runPipeline input).fileD.filename
        = "municipios_cbp_establishments_" ++ toString START_YEAR ++ "_"
          ++ toString ((fetchAll input).successful_years.getLastD 0) ++ "_wide.json" ∧
    (runPipeline input).fileD.elems.length = (munisOf input).length + 1 + 1 ∧
    "Puerto Rico" ∉ munisOf input := by
  obtain ⟨h1, h2, h3, h4, h5, hout⟩ := runPipeline_output_inv input h
  have hNoPR : ∀ r ∈ dropna (sortRecs (fetchAll input).records),
      r.Municipio ≠ "Puerto Rico" := by
    intro r hr
    exact fetchAll_no_territory input r
      ((sortLe_perm recLeB _).mem_iff.mp (List.mem_filter.mp hr).1)
  have hne : dropna (sortRecs (fetchAll input).records) ≠ [] :=
    kept_ne_nil_of_pivotYears_mem _ _ h5.1
  rw [hout]
  simp only [RunResult.fileD, outputOf]
  refine ⟨?_, ?_, rfl, rfl, ?_, ?_⟩
  · rw [List.getLast?_concat]
  · intro e he
    rw [List.dropLast_concat] at he
    rcases List.mem_map.mp he with ⟨m, _, rfl⟩
    rfl
  · rw [List.length_append, List.length_map, pivotMunis_length _ hNoPR hne]
    rfl
  · intro hmem
    unfold munisOf at hmem
    rcases List.mem_map.mp (List.mem_dedup.mp hmem) with ⟨r, hr, hrm⟩
    exact hNoPR r hr hrm

def inpC6 : List (Int × Resp) :=
  [ (2010, .ok [hdrC, ["Adjuntas Municipio, Puerto Rico", "5", "72", "001"],
                      ["Ponce Municipio, Puerto Rico", "7", "72", "113"],
                      ["Puerto Rico", "999", "72", ""]]),
    (2011, .ok [hdrC, ["Adjuntas Municipio, Puerto Rico", "6", "72", "001"],
                      ["Ponce Municipio, Puerto Rico", "8", "72", "113"]]) ]

theorem output_shape_witness :
    (munisOf inpC6).length = 2 ∧
    (runPipeline inpC6).fileD.elems.length = 4 ∧
    ((runPipeline inpC6).fileD.elems.getLast?
        = some (.meta (metadataOf (fetchAll inpC6).successful_years)) ∧
      (∀ e ∈ (runPipeline inpC6).fileD.elems.dropLast, e.isMeta = false) ∧
      (metadataOf (fetchAll inpC6).successful_years).data_years
        = (fetchAll inpC6).successful_years.map (fun y => toString y) ∧
      (runPipeline inpC6).fileD.filename
        = "municipios_cbp_establishments_" ++ toString START_YEAR ++ "_"
          ++ toString ((fetchAll inpC6).successful_years.getLastD 0) ++ "_wide.json" ∧
      (runPipeline inpC6).fileD.elems.length = (munisOf inpC6).length + 1 + 1 ∧
      "Puerto Rico" ∉ munisOf inpC6) :=
  ⟨by decide, by decide, output_shape inpC6 (by decide)⟩

/-- C10: in every written artifact the data rows (all array elements
except the final metadata object) are in strictly ascending code-point
lexicographic municipality order, and the synthesized "Puerto Rico"
aggregate row is among them — so it sits at its alphabetical position
rather than being appended first or last. -/
theorem output_rows_sorted (input : List (Int × Resp))
    (h : (runPipeline input).isOutput = true) :
    List.Chain' (fun a b => strLtB a b = true)
      ((runPipeline input).fileD.elems.dropLast.filterMap OutElem.rowName) ∧
    "Puerto Rico" ∈ (runPipeline input).fileD.elems.dropLast.filterMap OutElem.rowName := by
  obtain ⟨h1, h2, h3, h4, h5, hout⟩ := runPipeline_output_inv input h
  rw [hout]
  simp only [RunResult.fileD, outputOf]
  rw [List.dropLast_concat]
  have hnames : ∀ (wr : String → WideRow), (∀ m, (wr m).Municipio = m) →
      ∀ l : List String,
        (l.map (fun m => OutElem.row (wr m))).filterMap OutElem.rowName = l := by
    intro wr hwr l
    induction l with
    | nil => rfl
    | cons a t ih =>
      simp only [List.map_cons, List.filterMap_cons, OutElem.rowName, hwr, ih]
  rw [hnames _ (fun m => rfl) _]
  constructor
  · have hle : List.Chain' (fun a b => strLeB a b = true)
        (pivotMunis (fetchAll input).records) :=
      chain'_sortLe strLeB strLeB_total _
    have hnd : (pivotMunis (fetchAll input).records).Nodup :=
      ((sortLe_perm strLeB _).nodup_iff).mpr (List.nodup_dedup _)
    exact (chain'_and hle hnd.chain').imp
      (fun a b hab => strLeB_ne_lt a b hab.1 hab.2)
  · have hkept : dropna (sortRecs (fetchAll input).records) ≠ [] :=
      kept_ne_nil_of_pivotYears_mem _ _ h5.1
    rcases List.exists_mem_of_ne_nil _ (islandRows_ne_nil _ hkept) with ⟨r, hr⟩
    unfold pivotMunis sortedDedupStr
    rw [(sortLe_perm strLeB _).mem_iff, List.mem_dedup]
    refine List.mem_map.mpr ⟨r, ?_, (islandRows_mem _ r hr).1⟩
    unfold pivotInput
    exact List.mem_append_right _ hr

def inpC10 : List (Int × Resp) :=
  [ (2010, .ok [hdrC, ["Adjuntas Municipio, Puerto Rico", "5", "72", "001"],
                      ["Yauco Municipio, Puerto Rico", "3", "72", "153"],
                      ["Ponce Municipio, Puerto Rico", "7", "72", "113"]]),
    (2011, .ok [hdrC, ["Adjuntas Municipio, Puerto Rico", "6", "72", "001"],
                      ["Ponce Municipio, Puerto Rico", "8", "72", "113"],
                      ["Yauco Municipio, Puerto Rico", "4", "72", "153"]]) ]

theorem output_rows_sorted_witness :
    (runPipeline inpC10).fileD.elems.dropLast.filterMap OutElem.rowName
        = ["Adjuntas", "Ponce", "Puerto Rico", "Yauco"] ∧
    (List.Chain' (fun a b => strLtB a b = true)
        ((runPipeline inpC10).fileD.elems.dropLast.filterMap OutElem.rowName) ∧
      "Puerto Rico" ∈ (runPipeline inpC10).fileD.elems.dropLast.filterMap OutElem.rowName) :=
  ⟨by decide, output_rows_sorted inpC10 (by decide)⟩

end CBP
